import Mathlib

/-!
Shallow embedding of the retirement-planner repository's two numerical
engines, translated from the Python sources:

* `retirement_planner/calculations.py` and `retirement_planner/models.py` —
  the year-by-year retirement corpus projection;
* `sip_planner/sip_calculator.py` — the monthly SIP growth simulation and
  the bisection solver for the required contribution;
* `sip_planner/calculator.py` — the closed-form SIP amount helper.

Python floats are modelled as exact rationals (`ℚ`); integer ages and years
as `ℤ`/`ℕ`.  The unbounded `while` loop of the bisection solver is modelled
with explicit fuel, returning `none` when the fuel is exhausted before the
loop guard fails.
-/

namespace Retirement

/-- Child record, from `models.py` (`@dataclass Child`). -/
structure Child where
  current_age : ℤ
  school_fee : ℚ
  school_fee_increase : ℚ
  fee_increase_frequency : ℤ
  graduation_fee : ℚ
  marriage_cost : ℚ
  marriage_age : ℤ
deriving DecidableEq, Repr

/-- Retirement parameters, from `models.py` (`@dataclass RetirementParams`). -/
structure RetirementParams where
  current_age : ℤ
  retirement_age : ℤ
  life_expectancy : ℤ
  current_corpus : ℚ
  pre_ret_return : ℚ
  post_ret_return : ℚ
  inflation : ℚ
  monthly_expenses : ℚ
  children : List Child
deriving DecidableEq, Repr

/-- One year's projection, from `models.py` (`@dataclass YearlyProjection`). -/
structure YearlyProjection where
  year : ℤ
  age : ℤ
  corpus_start : ℚ
  household_expense : ℚ
  school_fees : ℚ
  graduation_fees : ℚ
  marriage_expense : ℚ
deriving DecidableEq, Repr

/-- `YearlyProjection.total_withdrawals` property from `models.py`. -/
def YearlyProjection.total_withdrawals (p : YearlyProjection) : ℚ :=
  p.household_expense + p.school_fees + p.graduation_fees + p.marriage_expense

/-- `YearlyProjection.corpus_end` method from `models.py`. -/
def YearlyProjection.corpus_end (p : YearlyProjection) (return_rate : ℚ) : ℚ :=
  p.corpus_start * (1 + return_rate) - p.total_withdrawals

/-- `calculate_inflated_amount` from `calculations.py`. -/
def calculate_inflated_amount (amount : ℚ) (inflation : ℚ) (years : ℕ) : ℚ :=
  amount * (1 + inflation) ^ years

/-- `calculate_school_fees` from `calculations.py`: zero outside child ages
5–17, otherwise the school fee stepped up every `fee_increase_frequency`
years and inflated over `current_year` elapsed years. -/
def calculate_school_fees (child : Child) (current_year : ℕ) (inflation : ℚ)
    (child_age : ℤ) : ℚ :=
  if child_age < 5 ∨ child_age > 17 then 0
  else
    let years_since_start : ℤ := child_age - 5
    let num_increases : ℤ := years_since_start.fdiv child.fee_increase_frequency
    let current_fee : ℚ := child.school_fee * (1 + child.school_fee_increase) ^ num_increases
    calculate_inflated_amount current_fee inflation current_year

/-- `calculate_graduation_fees` from `calculations.py`: the graduation fee
is spread over child ages 18–21, inflated; zero outside that window. -/
def calculate_graduation_fees (child : Child) (current_year : ℕ) (inflation : ℚ)
    (child_age : ℤ) : ℚ :=
  if 18 ≤ child_age ∧ child_age ≤ 21 then
    calculate_inflated_amount (child.graduation_fee / 4) inflation current_year
  else 0

/-- `calculate_marriage_expense` from `calculations.py`: the marriage cost,
inflated, exactly when the child's age equals `marriage_age`. -/
def calculate_marriage_expense (child : Child) (current_year : ℕ) (inflation : ℚ)
    (child_age : ℤ) : ℚ :=
  if child_age = child.marriage_age then
    calculate_inflated_amount child.marriage_cost inflation current_year
  else 0

/-- One output row of `generate_yearly_projections`: the `asdict` of the
`YearlyProjection` plus the clamped `corpus_end` entry added to the dict. -/
structure ProjRecord where
  year : ℤ
  age : ℤ
  corpus_start : ℚ
  household_expense : ℚ
  school_fees : ℚ
  graduation_fees : ℚ
  marriage_expense : ℚ
  corpus_end : ℚ
deriving DecidableEq, Repr

instance : Inhabited ProjRecord := ⟨⟨0, 0, 0, 0, 0, 0, 0, 0⟩⟩

/-- The `YearlyProjection` built in one iteration of the
`generate_yearly_projections` loop, with `e` the elapsed years
(`year - current_age`) and `corpus` the carried corpus. -/
def stepProjection (p : RetirementParams) (baseYear : ℤ) (e : ℕ) (corpus : ℚ) :
    YearlyProjection :=
  { year := baseYear + e
    age := p.current_age + e
    corpus_start := corpus
    household_expense := calculate_inflated_amount (p.monthly_expenses * 12) p.inflation e
    school_fees :=
      (p.children.map fun c => calculate_school_fees c e p.inflation (c.current_age + e)).sum
    graduation_fees :=
      (p.children.map fun c => calculate_graduation_fees c e p.inflation (c.current_age + e)).sum
    marriage_expense :=
      (p.children.map fun c => calculate_marriage_expense c e p.inflation (c.current_age + e)).sum }

/-- The return rate chosen in one loop iteration: post-retirement once
`year >= retirement_age`, pre-retirement before. -/
def stepRate (p : RetirementParams) (e : ℕ) : ℚ :=
  if p.retirement_age ≤ p.current_age + e then p.post_ret_return else p.pre_ret_return

/-- The output record of one loop iteration: the `asdict` of the
projection with the clamped `corpus_end` added. -/
def stepRecord (p : RetirementParams) (baseYear : ℤ) (e : ℕ) (corpus : ℚ) :
    ProjRecord :=
  let projection := stepProjection p baseYear e corpus
  let raw_end := projection.corpus_end (stepRate p e)
  { year := projection.year
    age := projection.age
    corpus_start := projection.corpus_start
    household_expense := projection.household_expense
    school_fees := projection.school_fees
    graduation_fees := projection.graduation_fees
    marriage_expense := projection.marriage_expense
    corpus_end := if raw_end < 0 then 0 else raw_end }

/-- The `for year in range(current_age, life_expectancy + 1)` loop of
`generate_yearly_projections`, with `e` the elapsed years, `corpus` the
carried corpus, and `remaining` the number of loop iterations left.
`baseYear` models `datetime.datetime.now().year`.  The carried corpus of
the next iteration is the clamped `corpus_end`, and the loop breaks after
appending a record when the clamped corpus is `≤ 0` and the current year
is strictly below `life_expectancy`. -/
def projLoop (p : RetirementParams) (baseYear : ℤ) : ℕ → ℚ → ℕ → List ProjRecord
  | _, _, 0 => []
  | e, corpus, remaining + 1 =>
    let record := stepRecord p baseYear e corpus
    record ::
      (if record.corpus_end ≤ 0 ∧ p.current_age + e < p.life_expectancy then []
       else projLoop p baseYear (e + 1) record.corpus_end remaining)

/-- `generate_yearly_projections` from `calculations.py`.  `baseYear`
stands for `datetime.datetime.now().year`. -/
def generate_yearly_projections (p : RetirementParams) (baseYear : ℤ) :
    List ProjRecord :=
  projLoop p baseYear 0 p.current_corpus (p.life_expectancy + 1 - p.current_age).toNat

/-- The concrete scenario of the spec (§8): age 30 → 60 → 85, corpus
1,000,000, returns 10%/7%, inflation 6%, monthly expenses 50,000, no
children. -/
def exampleParams : RetirementParams :=
  { current_age := 30
    retirement_age := 60
    life_expectancy := 85
    current_corpus := 1000000
    pre_ret_return := 1/10
    post_ret_return := 7/100
    inflation := 6/100
    monthly_expenses := 50000
    children := [] }

/-- The raw (unclamped) end-of-year corpus that `generate_yearly_projections`
computes for a record: `corpus_start` grown at the year's return rate minus
the four withdrawal fields, exactly as `YearlyProjection.corpus_end` does. -/
def rawCorpusEnd (p : RetirementParams) (r : ProjRecord) : ℚ :=
  r.corpus_start * (1 + (if p.retirement_age ≤ r.age then p.post_ret_return else p.pre_ret_return)) -
    (r.household_expense + r.school_fees + r.graduation_fees + r.marriage_expense)

/-- A minimal non-depleting scenario used to exercise the engine on a
concrete input: zero expenses and zero rates, two simulated years. -/
def tinyParams : RetirementParams :=
  { current_age := 0
    retirement_age := 0
    life_expectancy := 1
    current_corpus := 1
    pre_ret_return := 0
    post_ret_return := 0
    inflation := 0
    monthly_expenses := 0
    children := [] }

/-- A concrete child record used to exercise the expense schedulers. -/
def exampleChild : Child :=
  { current_age := 0
    school_fee := 10000
    school_fee_increase := 1/10
    fee_increase_frequency := 2
    graduation_fee := 400000
    marriage_cost := 1000000
    marriage_age := 25 }

/-- An invalid parameter set: `current_age` (90) exceeds both
`retirement_age` (60) and `life_expectancy` (85). -/
def invalidParams : RetirementParams :=
  { current_age := 90
    retirement_age := 60
    life_expectancy := 85
    current_corpus := 1000000
    pre_ret_return := 1/10
    post_ret_return := 7/100
    inflation := 6/100
    monthly_expenses := 50000
    children := [] }

end Retirement

namespace Sip

/-- One row of the projection table built by `calculate_sip` in
`sip_calculator.py`. -/
structure SipRow where
  year : ℕ
  monthly_investment : ℚ
  total_invested : ℚ
  corpus : ℚ
  returns : ℚ
deriving DecidableEq, Repr

/-- The `step_up_type` argument of `calculate_sip`: the source compares the
lower-cased string against `compounded`; anything else is fixed mode. -/
inductive StepUpType where
  | compounded
  | fixedStep
deriving DecidableEq, Repr

/-- The mutable state of the monthly loop in `calculate_sip`. -/
structure SipState where
  corpus : ℚ
  total_invested : ℚ
  current_investment : ℚ
  current_year : ℕ
  projections : List SipRow
deriving DecidableEq, Repr

/-- One iteration (one month) of the `calculate_sip` loop: contribution
added at the start of the month, monthly compounding at the end, and at a
12-month boundary before the final month a yearly row is appended and the
step-up applied (compounded: multiply the running contribution; fixed:
recompute from the initial contribution and the elapsed years). -/
def sipMonth (monthly_rate yearly_step_up initial_sip : ℚ) (is_compounded : Bool)
    (total_months month : ℕ) (st : SipState) : SipState :=
  let corpus := (st.corpus + st.current_investment) * (1 + monthly_rate)
  let total_invested := st.total_invested + st.current_investment
  if month % 12 = 0 ∧ month < total_months then
    let row : SipRow :=
      { year := month / 12
        monthly_investment := st.current_investment
        total_invested := total_invested
        corpus := corpus
        returns := corpus - total_invested }
    let current_investment :=
      if 1 ≤ st.current_year then
        if is_compounded then st.current_investment * (1 + yearly_step_up / 100)
        else initial_sip * (1 + yearly_step_up / 100 * st.current_year)
      else st.current_investment
    { corpus := corpus
      total_invested := total_invested
      current_investment := current_investment
      current_year := st.current_year + 1
      projections := st.projections ++ [row] }
  else
    { st with corpus := corpus, total_invested := total_invested }

/-- The `for month in range(1, total_months + 1)` loop of `calculate_sip`:
`month` is the current month index and `remaining` the number of months
still to process. -/
def sipGo (monthly_rate yearly_step_up initial_sip : ℚ) (is_compounded : Bool)
    (total_months : ℕ) : ℕ → ℕ → SipState → SipState
  | _, 0, st => st
  | month, remaining + 1, st =>
    sipGo monthly_rate yearly_step_up initial_sip is_compounded total_months
      (month + 1) remaining
      (sipMonth monthly_rate yearly_step_up initial_sip is_compounded total_months month st)

/-- The result dictionary of `calculate_sip`. -/
structure SipResult where
  final_amount : ℚ
  total_invested : ℚ
  total_returns : ℚ
  projection : List SipRow
deriving DecidableEq, Repr

instance : Inhabited SipResult := ⟨⟨0, 0, 0, []⟩⟩

/-- The loop state at the end of the monthly loop of `calculate_sip`:
initial corpus and invested amount equal to the lump sum, contribution
equal to the initial monthly investment, year counter 1, and an initial
year-0 row recorded when the lump sum is positive. -/
def sipFinalState (monthly_investment : ℚ) (tenure_years : ℕ)
    (rate_of_return yearly_step_up initial_investment : ℚ) (tenure_months : ℕ)
    (step_up_type : StepUpType) : SipState :=
  let monthly_rate := rate_of_return / 100 / 12
  let total_months := tenure_years * 12 + tenure_months
  let is_compounded : Bool :=
    match step_up_type with
    | StepUpType.compounded => true
    | StepUpType.fixedStep => false
  let st0 : SipState :=
    { corpus := initial_investment
      total_invested := initial_investment
      current_investment := monthly_investment
      current_year := 1
      projections :=
        if 0 < initial_investment then
          [{ year := 0
             monthly_investment := monthly_investment
             total_invested := initial_investment
             corpus := initial_investment
             returns := 0 }]
        else [] }
  sipGo monthly_rate yearly_step_up monthly_investment is_compounded total_months
    1 total_months st0

/-- `calculate_sip` from `sip_calculator.py`: runs the monthly loop, then
appends the final partial-year row when the tenure is not a whole number
of years or no row was recorded, and returns the result dictionary. -/
def calculate_sip (monthly_investment : ℚ) (tenure_years : ℕ)
    (rate_of_return : ℚ) (yearly_step_up : ℚ) (initial_investment : ℚ)
    (tenure_months : ℕ) (step_up_type : StepUpType) : SipResult :=
  let total_months := tenure_years * 12 + tenure_months
  let st := sipFinalState monthly_investment tenure_years rate_of_return
    yearly_step_up initial_investment tenure_months step_up_type
  let projections :=
    if total_months % 12 ≠ 0 ∨ st.projections = [] then
      let year : ℕ :=
        match st.projections.getLast? with
        | some last => last.year + (if total_months % 12 > 0 then 1 else 0)
        | none => total_months / 12 + (if total_months % 12 > 0 then 1 else 0)
      st.projections ++
        [{ year := year
           monthly_investment := st.current_investment
           total_invested := st.total_invested
           corpus := st.corpus
           returns := st.corpus - st.total_invested }]
    else st.projections
  { final_amount := st.corpus
    total_invested := st.total_invested
    total_returns := st.corpus - st.total_invested
    projection := projections }

/-- The `while high - low > tolerance` bisection loop of
`calculate_sip_required`, with explicit fuel: `none` models the loop still
running when the fuel is exhausted, `some (low, high, result)` the state
when the guard fails. -/
def sipRequiredLoop (target_amount : ℚ) (tenure_years : ℕ)
    (rate_of_return yearly_step_up initial_investment : ℚ) (tenure_months : ℕ) :
    ℕ → ℚ → ℚ → Option SipResult → Option (ℚ × ℚ × Option SipResult)
  | 0, low, high, result =>
    if high - low > 1/100 then none else some (low, high, result)
  | fuel + 1, low, high, result =>
    if high - low > 1/100 then
      let mid := (low + high) / 2
      let calcR := calculate_sip mid tenure_years rate_of_return yearly_step_up
        initial_investment tenure_months StepUpType.compounded
      if calcR.final_amount < target_amount then
        sipRequiredLoop target_amount tenure_years rate_of_return yearly_step_up
          initial_investment tenure_months fuel mid high result
      else
        sipRequiredLoop target_amount tenure_years rate_of_return yearly_step_up
          initial_investment tenure_months fuel low mid (some calcR)
    else some (low, high, result)

/-- `calculate_sip_required` from `sip_calculator.py`: bisection over the
contribution in `[0, target_amount]` with tolerance `0.01`; when the loop
never took the `else` branch (`result` still `None`) the fallback
re-simulates at the final `high`.  The fuel argument models the unbounded
`while` loop; `none` means the fuel ran out before the guard failed. -/
def calculate_sip_required (target_amount : ℚ) (tenure_years : ℕ)
    (rate_of_return yearly_step_up initial_investment : ℚ) (tenure_months : ℕ)
    (fuel : ℕ) : Option SipResult :=
  match sipRequiredLoop target_amount tenure_years rate_of_return yearly_step_up
      initial_investment tenure_months fuel 0 target_amount none with
  | none => none
  | some (_, high, result) =>
    some (result.getD (calculate_sip high tenure_years rate_of_return
      yearly_step_up initial_investment tenure_months StepUpType.compounded))

/-- `calculate_sip_amount` from `calculator.py`: closed-form required SIP,
falling back to linear division when the monthly rate is zero. -/
def calculate_sip_amount (target_amount : ℚ) (years : ℕ)
    (expected_return_rate : ℚ) : ℚ :=
  let monthly_rate := expected_return_rate / 100 / 12
  let total_months := years * 12
  if monthly_rate = 0 then target_amount / total_months
  else target_amount * monthly_rate / ((1 + monthly_rate) ^ total_months - 1)

/-- Number of 12-month boundaries (step-up points) seen by the loop when
processing `remaining` months starting at month index `month`, with
`total_months` months in total: months divisible by 12 and strictly before
the final month. -/
def countB (total_months : ℕ) : ℕ → ℕ → ℕ
  | _, 0 => 0
  | month, remaining + 1 =>
    (if month % 12 = 0 ∧ month < total_months then 1 else 0) +
      countB total_months (month + 1) remaining

end Sip

namespace Retirement

/-- The record built by one loop iteration stores exactly the raw
end-of-year corpus clamped at zero. -/
theorem stepRecord_corpus_end (p : RetirementParams) (b : ℤ) (e : ℕ) (corpus : ℚ) :
    (stepRecord p b e corpus).corpus_end =
      if rawCorpusEnd p (stepRecord p b e corpus) < 0 then 0
      else rawCorpusEnd p (stepRecord p b e corpus) := rfl

/-- Every record produced by `projLoop` carries a clamped `corpus_end`:
it is nonnegative, and equals the raw end-of-year corpus when that is
nonnegative and `0` otherwise. -/
theorem projLoop_corpus_end (p : RetirementParams) (b : ℤ) :
    ∀ (remaining e : ℕ) (corpus : ℚ) (r : ProjRecord),
      r ∈ projLoop p b e corpus remaining →
      0 ≤ r.corpus_end ∧
        r.corpus_end = if rawCorpusEnd p r < 0 then 0 else rawCorpusEnd p r := by
  intro remaining
  induction remaining with
  | zero => intro e corpus r hr; simp [projLoop] at hr
  | succ n ih =>
    intro e corpus r hr
    simp only [projLoop, List.mem_cons] at hr
    rcases hr with h | h
    · subst h
      refine ⟨?_, stepRecord_corpus_end p b e corpus⟩
      rw [stepRecord_corpus_end p b e corpus]
      split
      · exact le_refl 0
      · exact le_of_not_lt (by assumption)
    · by_cases hb : (stepRecord p b e corpus).corpus_end ≤ 0 ∧
        p.current_age + (e : ℤ) < p.life_expectancy
      · rw [if_pos hb] at h
        simp at h
      · rw [if_neg hb] at h
        exact ih (e + 1) _ r h

/-- C2: every record of `generate_yearly_projections` has a nonnegative
`corpus_end`, and the stored `corpus_end` is the raw end-of-year corpus
clamped at zero. -/
theorem corpus_end_clamped (p : RetirementParams) (b : ℤ) :
    ∀ r ∈ generate_yearly_projections p b,
      0 ≤ r.corpus_end ∧
        r.corpus_end = if rawCorpusEnd p r < 0 then 0 else rawCorpusEnd p r := by
  intro r hr
  exact projLoop_corpus_end p b _ 0 p.current_corpus r hr

/-- Witness for C2: the first record of the tiny concrete scenario. -/
theorem corpus_end_clamped_witness :
    0 ≤ ((generate_yearly_projections tinyParams 2025).getD 0 default).corpus_end ∧
      ((generate_yearly_projections tinyParams 2025).getD 0 default).corpus_end =
        if rawCorpusEnd tinyParams ((generate_yearly_projections tinyParams 2025).getD 0 default) < 0
        then 0 else rawCorpusEnd tinyParams ((generate_yearly_projections tinyParams 2025).getD 0 default) := by
  refine corpus_end_clamped tinyParams 2025 _ ?_
  norm_num [generate_yearly_projections, projLoop, stepRecord, stepProjection,
    stepRate, tinyParams, calculate_inflated_amount, YearlyProjection.corpus_end,
    YearlyProjection.total_withdrawals]

/-- Any record of `projLoop` that satisfies the break condition
(`corpus_end ≤ 0` before the horizon) is the last record of the output. -/
theorem projLoop_stop_after_depletion (p : RetirementParams) (b : ℤ) :
    ∀ (remaining e : ℕ) (corpus : ℚ) (l1 : List ProjRecord) (r : ProjRecord)
      (l2 : List ProjRecord),
      projLoop p b e corpus remaining = l1 ++ r :: l2 →
      r.corpus_end ≤ 0 → r.age < p.life_expectancy → l2 = [] := by
  intro remaining
  induction remaining with
  | zero =>
    intro e corpus l1 r l2 heq hce hage
    rw [projLoop] at heq
    cases l1 <;> simp at heq
  | succ n ih =>
    intro e corpus l1 r l2 heq hce hage
    simp only [projLoop] at heq
    cases l1 with
    | nil =>
      rw [List.nil_append, List.cons.injEq] at heq
      obtain ⟨hr, hl2⟩ := heq
      by_cases hb : (stepRecord p b e corpus).corpus_end ≤ 0 ∧
          p.current_age + (e : ℤ) < p.life_expectancy
      · rw [if_pos hb] at hl2
        exact hl2.symm
      · exfalso
        apply hb
        refine ⟨?_, ?_⟩
        · rw [hr]; exact hce
        · have hager : r.age = p.current_age + (e : ℤ) := by rw [← hr]; rfl
          rw [hager] at hage
          exact hage
    | cons a l1' =>
      rw [List.cons_append, List.cons.injEq] at heq
      obtain ⟨-, htail⟩ := heq
      by_cases hb : (stepRecord p b e corpus).corpus_end ≤ 0 ∧
          p.current_age + (e : ℤ) < p.life_expectancy
      · rw [if_pos hb] at htail
        exact absurd htail.symm (by simp)
      · rw [if_neg hb] at htail
        exact ih (e + 1) _ l1' r l2 htail hce hage

/-- If no record of `projLoop` satisfies the break condition, the loop runs
all `remaining` iterations and the record ages are consecutive. -/
theorem projLoop_full_horizon (p : RetirementParams) (b : ℤ) :
    ∀ (remaining e : ℕ) (corpus : ℚ),
      (∀ r ∈ projLoop p b e corpus remaining,
        r.age < p.life_expectancy → 0 < r.corpus_end) →
      (projLoop p b e corpus remaining).map (fun r => r.age) =
        (List.range remaining).map (fun i : ℕ => p.current_age + (e : ℤ) + (i : ℤ)) := by
  intro remaining
  induction remaining with
  | zero => intro e corpus _; simp [projLoop]
  | succ n ih =>
    intro e corpus h
    have hhead : (stepRecord p b e corpus) ∈ projLoop p b e corpus (n + 1) := by
      rw [projLoop]; exact List.mem_cons_self _ _
    by_cases hb : (stepRecord p b e corpus).corpus_end ≤ 0 ∧
        p.current_age + (e : ℤ) < p.life_expectancy
    · exfalso
      have hlt : (stepRecord p b e corpus).age < p.life_expectancy := hb.2
      have := h _ hhead hlt
      linarith [hb.1]
    · have hrec : projLoop p b e corpus (n + 1) =
          stepRecord p b e corpus ::
            projLoop p b (e + 1) (stepRecord p b e corpus).corpus_end n := by
        rw [projLoop, if_neg hb]
      have htail : ∀ r ∈ projLoop p b (e + 1) (stepRecord p b e corpus).corpus_end n,
          r.age < p.life_expectancy → 0 < r.corpus_end := by
        intro r hr
        exact h r (by rw [hrec]; exact List.mem_cons_of_mem _ hr)
      rw [hrec, List.map_cons, ih (e + 1) _ htail, List.range_succ_eq_map,
        List.map_cons, List.map_map]
      refine congrArg₂ _ ?_ ?_
      · show p.current_age + (e : ℤ) = p.current_age + (e : ℤ) + ((0 : ℕ) : ℤ)
        push_cast
        ring
      · refine List.map_congr_left ?_
        intro i _
        show p.current_age + ((e + 1 : ℕ) : ℤ) + (i : ℤ) =
          p.current_age + (e : ℤ) + ((i + 1 : ℕ) : ℤ)
        push_cast
        ring

/-- C3: (a) a record with `corpus_end ≤ 0` whose age is strictly below
`life_expectancy` is never followed by further records; (b) when no record
before the horizon depletes, the output has one record per age from
`current_age` through `life_expectancy` inclusive. -/
theorem depletion_stops_and_full_horizon (p : RetirementParams) (b : ℤ)
    (_h1 : p.current_age ≤ p.retirement_age) (_h2 : p.retirement_age ≤ p.life_expectancy) :
    (∀ (l1 : List ProjRecord) (r : ProjRecord) (l2 : List ProjRecord),
        generate_yearly_projections p b = l1 ++ r :: l2 →
        r.corpus_end ≤ 0 → r.age < p.life_expectancy → l2 = []) ∧
    ((∀ r ∈ generate_yearly_projections p b,
        r.age < p.life_expectancy → 0 < r.corpus_end) →
      (generate_yearly_projections p b).map (fun r => r.age) =
        (List.range (p.life_expectancy + 1 - p.current_age).toNat).map
          (fun i : ℕ => p.current_age + (i : ℤ))) := by
  constructor
  · intro l1 r l2 heq
    exact projLoop_stop_after_depletion p b _ 0 p.current_corpus l1 r l2 heq
  · intro h
    rw [generate_yearly_projections] at h ⊢
    rw [projLoop_full_horizon p b _ 0 p.current_corpus h]
    refine List.map_congr_left ?_
    intro i _
    push_cast
    ring

/-- Witness for C3 on the tiny concrete scenario: both simulated years are
produced, with consecutive ages 0 and 1. -/
theorem depletion_stops_witness :
    (generate_yearly_projections tinyParams 2025).map (fun r => r.age) = [0, 1] := by
  have h := (depletion_stops_and_full_horizon tinyParams 2025
      (by norm_num [tinyParams]) (by norm_num [tinyParams])).2 ?_
  · rw [h]
    decide
  · norm_num [generate_yearly_projections, projLoop, stepRecord, stepProjection,
      stepRate, tinyParams, calculate_inflated_amount, YearlyProjection.corpus_end,
      YearlyProjection.total_withdrawals, List.forall_mem_cons]

/-- C8 counterexample: on an invalid parameter set (`current_age` 90 above
`retirement_age` 60 and `life_expectancy` 85) the engine does not fail with
an error — it silently returns the empty projection sequence. -/
theorem no_validation_counterexample :
    generate_yearly_projections invalidParams 2025 = [] := rfl

/-- C8 amended: `generate_yearly_projections` performs no input validation;
whenever `life_expectancy < current_age` it silently returns the empty
sequence instead of failing. -/
theorem no_validation_empty (p : RetirementParams) (b : ℤ)
    (h : p.life_expectancy < p.current_age) :
    generate_yearly_projections p b = [] := by
  have hz : (p.life_expectancy + 1 - p.current_age).toNat = 0 := by
    omega
  rw [generate_yearly_projections, hz]
  rfl

/-- Witness for the amended C8 on the concrete invalid parameter set. -/
theorem no_validation_empty_witness :
    generate_yearly_projections invalidParams 2025 = [] :=
  no_validation_empty invalidParams 2025 (by norm_num [invalidParams])

/-- C4: school fees are nonzero only for child ages 5–17, where they equal
the stepped-up fee inflated over the elapsed years; graduation fees are
nonzero only for ages 18–21, where they are a quarter of the graduation fee
inflated; the marriage expense is nonzero only when the child's age equals
`marriage_age`, where it is the inflated marriage cost, and along a
simulated run (child age = `current_age` + elapsed years) it can fire in at
most one year. -/
theorem child_expense_windows (c : Child) (_hf : 1 ≤ c.fee_increase_frequency)
    (e : ℕ) (infl : ℚ) (a : ℤ) :
    (calculate_school_fees c e infl a ≠ 0 → 5 ≤ a ∧ a ≤ 17) ∧
    (5 ≤ a → a ≤ 17 →
      calculate_school_fees c e infl a =
        calculate_inflated_amount
          (c.school_fee * (1 + c.school_fee_increase) ^
            ((a - 5).fdiv c.fee_increase_frequency)) infl e) ∧
    (calculate_graduation_fees c e infl a ≠ 0 → 18 ≤ a ∧ a ≤ 21) ∧
    (18 ≤ a → a ≤ 21 →
      calculate_graduation_fees c e infl a =
        calculate_inflated_amount (c.graduation_fee / 4) infl e) ∧
    (calculate_marriage_expense c e infl a ≠ 0 → a = c.marriage_age) ∧
    (a = c.marriage_age →
      calculate_marriage_expense c e infl a =
        calculate_inflated_amount c.marriage_cost infl e) ∧
    (∀ e1 e2 : ℕ,
      calculate_marriage_expense c e1 infl (c.current_age + e1) ≠ 0 →
      calculate_marriage_expense c e2 infl (c.current_age + e2) ≠ 0 → e1 = e2) := by
  refine ⟨?_, ?_, ?_, ?_, ?_, ?_, ?_⟩
  · intro hne
    constructor
    · by_contra hx
      exact hne (by simp only [calculate_school_fees]; rw [if_pos (Or.inl (by omega))])
    · by_contra hx
      exact hne (by simp only [calculate_school_fees]; rw [if_pos (Or.inr (by omega))])
  · intro h5 h17
    simp only [calculate_school_fees]
    rw [if_neg (by omega)]
  · intro hne
    by_contra hcon
    push_neg at hcon
    apply hne
    simp only [calculate_graduation_fees]
    rw [if_neg (by omega)]
  · intro h18 h21
    simp only [calculate_graduation_fees]
    rw [if_pos ⟨h18, h21⟩]
  · intro hne
    by_contra hcon
    exact hne (by simp only [calculate_marriage_expense]; rw [if_neg hcon])
  · intro ha
    simp only [calculate_marriage_expense]
    rw [if_pos ha]
  · intro e1 e2 hne1 hne2
    have k1 : c.current_age + (e1 : ℤ) = c.marriage_age := by
      by_contra hk
      exact hne1 (by simp only [calculate_marriage_expense]; rw [if_neg hk])
    have k2 : c.current_age + (e2 : ℤ) = c.marriage_age := by
      by_contra hk
      exact hne2 (by simp only [calculate_marriage_expense]; rw [if_neg hk])
    omega

/-- Witness for C4: the school fee of the concrete child at age 10 with no
inflation equals the stepped-up fee formula. -/
theorem child_expense_windows_witness :
    calculate_school_fees exampleChild 0 0 10 =
      calculate_inflated_amount
        (exampleChild.school_fee * (1 + exampleChild.school_fee_increase) ^
          (((10 : ℤ) - 5).fdiv exampleChild.fee_increase_frequency)) 0 0 :=
  (child_expense_windows exampleChild (by decide) 0 0 10).2.1 (by decide) (by decide)

/-- C1: in the spec's concrete scenario the first projected record has
age 30, corpus_start 1,000,000, household_expense 600,000 and corpus_end
1,000,000 × 1.10 − 600,000 = 500,000. -/
theorem first_record_concrete_scenario :
    ((generate_yearly_projections exampleParams 2025).head?.map fun r =>
      (r.age, r.corpus_start, r.household_expense, r.corpus_end)) =
      some (30, 1000000, 600000, 500000) := by
  set_option maxRecDepth 4000 in
  norm_num [generate_yearly_projections, projLoop, stepRecord, stepProjection,
    stepRate, calculate_inflated_amount, YearlyProjection.corpus_end,
    YearlyProjection.total_withdrawals, exampleParams]

end Retirement

namespace Sip

/-- C9: with an expected annual return rate of exactly 0 the closed-form
solver does not divide by zero — it falls back to linear division and
returns `target_amount / (years * 12)`. -/
theorem sip_amount_zero_rate (target_amount : ℚ) (years : ℕ) (_hy : 1 ≤ years) :
    calculate_sip_amount target_amount years 0 =
      target_amount / ((years : ℚ) * 12) := by
  simp only [calculate_sip_amount]
  rw [if_pos (by norm_num)]
  push_cast
  ring_nf

/-- Witness for C9 at a concrete input: a 1,200 target over one year at
zero return needs 100 per month. -/
theorem sip_amount_zero_rate_witness :
    calculate_sip_amount 1200 1 0 = 1200 / ((1 : ℚ) * 12) :=
  sip_amount_zero_rate 1200 1 (by norm_num)

/-- One month of the SIP loop preserves the pairwise comparison of two
runs that differ only in the contribution magnitude, when the monthly rate
and step-up are nonnegative. -/
theorem sipMonth_mono (mr s m1 m2 : ℚ) (comp : Bool) (M month : ℕ)
    (hmr : 0 ≤ mr) (hs : 0 ≤ s) (hm : m1 ≤ m2) (st1 st2 : SipState)
    (hy : st1.current_year = st2.current_year)
    (hci : st1.current_investment ≤ st2.current_investment)
    (hc : st1.corpus ≤ st2.corpus) :
    (sipMonth mr s m1 comp M month st1).current_year =
        (sipMonth mr s m2 comp M month st2).current_year ∧
      (sipMonth mr s m1 comp M month st1).current_investment ≤
        (sipMonth mr s m2 comp M month st2).current_investment ∧
      (sipMonth mr s m1 comp M month st1).corpus ≤
        (sipMonth mr s m2 comp M month st2).corpus := by
  have hcorp : (st1.corpus + st1.current_investment) * (1 + mr) ≤
      (st2.corpus + st2.current_investment) * (1 + mr) :=
    mul_le_mul_of_nonneg_right (by linarith) (by linarith)
  simp only [sipMonth]
  by_cases hb : month % 12 = 0 ∧ month < M
  · rw [if_pos hb, if_pos hb]
    refine ⟨by simp [hy], ?_, by simpa using hcorp⟩
    simp only
    by_cases h1 : 1 ≤ st1.current_year
    · have h2 : 1 ≤ st2.current_year := hy ▸ h1
      rw [if_pos h1, if_pos h2]
      cases comp with
      | true =>
        simp only [if_pos rfl]
        exact mul_le_mul_of_nonneg_right hci (by linarith)
      | false =>
        simp only [Bool.false_eq_true, if_neg (by simp : ¬False)]
        rw [hy]
        have hfac : (0 : ℚ) ≤ 1 + s / 100 * st2.current_year := by
          have : (0 : ℚ) ≤ s / 100 * st2.current_year := by positivity
          linarith
        exact mul_le_mul_of_nonneg_right hm hfac
    · have h2 : ¬ 1 ≤ st2.current_year := hy ▸ h1
      rw [if_neg h1, if_neg h2]
      exact hci
  · rw [if_neg hb, if_neg hb]
    exact ⟨hy, hci, by simpa using hcorp⟩

/-- The monthly loop preserves the pairwise comparison of two runs that
differ only in the contribution magnitude. -/
theorem sipGo_mono (mr s m1 m2 : ℚ) (comp : Bool) (M : ℕ)
    (hmr : 0 ≤ mr) (hs : 0 ≤ s) (hm : m1 ≤ m2) :
    ∀ (remaining month : ℕ) (st1 st2 : SipState),
      st1.current_year = st2.current_year →
      st1.current_investment ≤ st2.current_investment →
      st1.corpus ≤ st2.corpus →
      (sipGo mr s m1 comp M month remaining st1).corpus ≤
        (sipGo mr s m2 comp M month remaining st2).corpus := by
  intro remaining
  induction remaining with
  | zero => intro month st1 st2 _ _ hc; simpa [sipGo] using hc
  | succ n ih =>
    intro month st1 st2 hy hci hc
    rw [sipGo, sipGo]
    obtain ⟨h1, h2, h3⟩ :=
      sipMonth_mono mr s m1 m2 comp M month hmr hs hm st1 st2 hy hci hc
    exact ih (month + 1) _ _ h1 h2 h3

/-- C6: the final amount of `calculate_sip` is monotonically non-decreasing
in the monthly contribution, for any fixed tenure, nonnegative annual
return rate, nonnegative step-up and nonnegative lump sum, in both step-up
modes. -/
theorem final_amount_mono (m1 m2 : ℚ) (tenure_years : ℕ) (rate s lump : ℚ)
    (tenure_months : ℕ) (mode : StepUpType)
    (hrate : 0 ≤ rate) (hs : 0 ≤ s) (_hlump : 0 ≤ lump) (hm : m1 ≤ m2) :
    (calculate_sip m1 tenure_years rate s lump tenure_months mode).final_amount ≤
      (calculate_sip m2 tenure_years rate s lump tenure_months mode).final_amount := by
  simp only [calculate_sip, sipFinalState]
  exact sipGo_mono (rate / 100 / 12) s m1 m2 _ _ (by positivity) hs hm _ 1 _ _
    rfl hm le_rfl

/-- Witness for C6 at concrete inputs: contributions 100 and 200 over one
year at zero return give final amounts 1,200 and 2,400. -/
theorem final_amount_mono_witness :
    (calculate_sip 100 1 0 0 0 0 StepUpType.compounded).final_amount ≤
      (calculate_sip 200 1 0 0 0 0 StepUpType.compounded).final_amount :=
  final_amount_mono 100 200 1 0 0 0 0 StepUpType.compounded (by norm_num)
    (by norm_num) (by norm_num) (by norm_num)

end Sip

namespace Sip

/-- Splitting the boundary count over a concatenation of month ranges. -/
theorem countB_split (M : ℕ) :
    ∀ (r1 r2 month : ℕ),
      countB M month (r1 + r2) = countB M month r1 + countB M (month + r1) r2 := by
  intro r1
  induction r1 with
  | zero => intro r2 month; simp [countB]
  | succ n ih =>
    intro r2 month
    have hre : n + 1 + r2 = (n + r2) + 1 := by omega
    rw [hre]
    simp only [countB]
    rw [ih r2 (month + 1), show month + 1 + n = month + (n + 1) from by omega]
    ring

/-- If some month `k` in the processed range is a counted boundary, the
boundary count is at least one. -/
theorem countB_pos (M : ℕ) :
    ∀ (r month k : ℕ), month ≤ k → k < month + r → k % 12 = 0 → k < M →
      1 ≤ countB M month r := by
  intro r
  induction r with
  | zero => intro month k h1 h2 _ _; omega
  | succ n ih =>
    intro month k h1 h2 h3 h4
    simp only [countB]
    by_cases he : month = k
    · subst he
      rw [if_pos ⟨h3, h4⟩]
      exact Nat.le_add_right 1 _
    · exact le_trans (ih (month + 1) k (by omega) (by omega) h3 h4)
        (Nat.le_add_left _ _)

/-- A run of at least 36 months contains at least the two step-up
boundaries at months 12 and 24. -/
theorem countB_ge_two (M : ℕ) (hM : 36 ≤ M) : 2 ≤ countB M 1 M := by
  have hsplit := countB_split M 13 (M - 13) 1
  rw [show 13 + (M - 13) = M from by omega,
    show (1 : ℕ) + 13 = 14 from rfl] at hsplit
  rw [hsplit]
  have h1 : 1 ≤ countB M 1 13 :=
    countB_pos M 13 1 12 (by omega) (by omega) (by norm_num) (by omega)
  have h2 : 1 ≤ countB M 14 (M - 13) :=
    countB_pos M (M - 13) 14 24 (by omega) (by omega) (by norm_num) (by omega)
  omega

/-- One month advances the year counter exactly at counted boundaries. -/
theorem sipMonth_current_year (mr s m0 : ℚ) (comp : Bool) (M month : ℕ)
    (st : SipState) :
    (sipMonth mr s m0 comp M month st).current_year =
      st.current_year + (if month % 12 = 0 ∧ month < M then 1 else 0) := by
  by_cases hb : month % 12 = 0 ∧ month < M <;>
    simp [sipMonth, hb]

/-- At a counted boundary in compounded mode, with the year counter at
least one, the running contribution is multiplied by the step-up factor. -/
theorem sipMonth_ci_boundary_comp (mr s m0 : ℚ) (M month : ℕ) (st : SipState)
    (hb : month % 12 = 0 ∧ month < M) (hcy : 1 ≤ st.current_year) :
    (sipMonth mr s m0 true M month st).current_investment =
      st.current_investment * (1 + s / 100) := by
  simp [sipMonth, hb, hcy]

/-- At a counted boundary in fixed mode, with the year counter at least
one, the contribution is recomputed from the initial contribution. -/
theorem sipMonth_ci_boundary_fixed (mr s m0 : ℚ) (M month : ℕ) (st : SipState)
    (hb : month % 12 = 0 ∧ month < M) (hcy : 1 ≤ st.current_year) :
    (sipMonth mr s m0 false M month st).current_investment =
      m0 * (1 + s / 100 * st.current_year) := by
  simp [sipMonth, hb, hcy]

/-- Away from counted boundaries the contribution is unchanged. -/
theorem sipMonth_ci_nonboundary (mr s m0 : ℚ) (comp : Bool) (M month : ℕ)
    (st : SipState) (hb : ¬(month % 12 = 0 ∧ month < M)) :
    (sipMonth mr s m0 comp M month st).current_investment =
      st.current_investment := by
  simp [sipMonth, hb]

/-- The corpus update of one month: contribution at the start of the
month, compounding at the end, in every case. -/
theorem sipMonth_corpus (mr s m0 : ℚ) (comp : Bool) (M month : ℕ)
    (st : SipState) :
    (sipMonth mr s m0 comp M month st).corpus =
      (st.corpus + st.current_investment) * (1 + mr) := by
  by_cases hb : month % 12 = 0 ∧ month < M <;> simp [sipMonth, hb]

/-- In compounded mode the final contribution is the initial one times the
step-up factor raised to the number of counted boundaries. -/
theorem sipGo_ci_compounded (mr s m0 : ℚ) (M : ℕ) :
    ∀ (remaining month : ℕ) (st : SipState), 1 ≤ st.current_year →
      (sipGo mr s m0 true M month remaining st).current_investment =
        st.current_investment * (1 + s / 100) ^ countB M month remaining := by
  intro remaining
  induction remaining with
  | zero => intro month st _; simp [sipGo, countB]
  | succ n ih =>
    intro month st hcy
    rw [sipGo]
    have hcy' : 1 ≤ (sipMonth mr s m0 true M month st).current_year := by
      rw [sipMonth_current_year]; omega
    rw [ih (month + 1) _ hcy']
    simp only [countB]
    by_cases hb : month % 12 = 0 ∧ month < M
    · rw [sipMonth_ci_boundary_comp mr s m0 M month st hb hcy, if_pos hb,
        pow_add, pow_one]
      ring
    · rw [sipMonth_ci_nonboundary mr s m0 true M month st hb, if_neg hb]
      ring_nf

/-- In fixed mode the final contribution is recomputed linearly from the
number of counted boundaries. -/
theorem sipGo_ci_fixed (mr s m0 : ℚ) (M : ℕ) :
    ∀ (remaining month k : ℕ) (st : SipState),
      st.current_year = k + 1 →
      st.current_investment = m0 * (1 + s / 100 * k) →
      (sipGo mr s m0 false M month remaining st).current_investment =
        m0 * (1 + s / 100 * ((k + countB M month remaining : ℕ) : ℚ)) := by
  intro remaining
  induction remaining with
  | zero =>
    intro month k st _ hci
    simp only [sipGo, countB]
    rw [hci]
    norm_num
  | succ n ih =>
    intro month k st hcy hci
    rw [sipGo]
    by_cases hb : month % 12 = 0 ∧ month < M
    · have hcy' : (sipMonth mr s m0 false M month st).current_year = (k + 1) + 1 := by
        rw [sipMonth_current_year, if_pos hb, hcy]
      have hci' : (sipMonth mr s m0 false M month st).current_investment =
          m0 * (1 + s / 100 * ((k + 1 : ℕ) : ℚ)) := by
        rw [sipMonth_ci_boundary_fixed mr s m0 M month st hb (by omega), hcy]
      rw [ih (month + 1) (k + 1) _ hcy' hci']
      simp only [countB, if_pos hb]
      rw [show k + 1 + countB M (month + 1) n = k + (1 + countB M (month + 1) n) from by omega]
    · have hcy' : (sipMonth mr s m0 false M month st).current_year = k + 1 := by
        rw [sipMonth_current_year, if_neg hb, hcy]
      have hci' : (sipMonth mr s m0 false M month st).current_investment =
          m0 * (1 + s / 100 * k) := by
        rw [sipMonth_ci_nonboundary mr s m0 false M month st hb, hci]
      rw [ih (month + 1) k _ hcy' hci']
      simp only [countB, if_neg hb]
      rw [show k + (0 + countB M (month + 1) n) = k + countB M (month + 1) n from by omega]

/-- Closed form of the contribution in effect at the end of a compounded
run of `calculate_sip`. -/
theorem sipFinalState_ci_compounded (m0 : ℚ) (T : ℕ) (rate s lump : ℚ)
    (extra : ℕ) :
    (sipFinalState m0 T rate s lump extra StepUpType.compounded).current_investment =
      m0 * (1 + s / 100) ^ countB (T * 12 + extra) 1 (T * 12 + extra) := by
  simp only [sipFinalState]
  rw [sipGo_ci_compounded (rate / 100 / 12) s m0 (T * 12 + extra)
    (T * 12 + extra) 1 _ (by norm_num)]

/-- Closed form of the contribution in effect at the end of a fixed-mode
run of `calculate_sip`. -/
theorem sipFinalState_ci_fixed (m0 : ℚ) (T : ℕ) (rate s lump : ℚ)
    (extra : ℕ) :
    (sipFinalState m0 T rate s lump extra StepUpType.fixedStep).current_investment =
      m0 * (1 + s / 100 * ((countB (T * 12 + extra) 1 (T * 12 + extra) : ℕ) : ℚ)) := by
  simp only [sipFinalState]
  rw [sipGo_ci_fixed (rate / 100 / 12) s m0 (T * 12 + extra)
    (T * 12 + extra) 1 0 _ rfl (by push_cast; ring)]
  norm_num

/-- Strict Bernoulli inequality over `ℚ` for a positive increment and at
least two factors. -/
theorem one_add_mul_lt_pow_of_pos (x : ℚ) (hx : 0 < x) :
    ∀ n : ℕ, 2 ≤ n → 1 + (n : ℚ) * x < (1 + x) ^ n := by
  intro n
  induction n with
  | zero => intro h; exact absurd h (by norm_num)
  | succ k ih =>
    intro h2
    rcases Nat.lt_or_ge k 2 with hk | hk
    · have hk1 : k = 1 := by omega
      subst hk1
      push_cast
      nlinarith [mul_pos hx hx]
    · have hlt := ih hk
      have hpos : (0 : ℚ) < 1 + x := by linarith
      have h3 : (1 + (k : ℚ) * x) * (1 + x) < (1 + x) ^ k * (1 + x) :=
        mul_lt_mul_of_pos_right hlt hpos
      rw [pow_succ]
      push_cast
      nlinarith [h3, mul_nonneg (by positivity : (0:ℚ) ≤ (k : ℚ)) (sq_nonneg x)]

/-- C7 amended: with a positive step-up and a tenure of at least three
whole years (so that at least two step-up boundaries occur), the
contribution in effect at the end of the monthly loop is strictly larger
in compounded mode than in fixed mode; at exactly two years the two modes
still agree. -/
theorem compounded_beats_fixed (m0 s rate lump : ℚ) (T : ℕ)
    (hm : 0 < m0) (hs : 0 < s) (hT : 3 ≤ T) :
    (sipFinalState m0 T rate s lump 0 StepUpType.fixedStep).current_investment <
      (sipFinalState m0 T rate s lump 0 StepUpType.compounded).current_investment := by
  rw [sipFinalState_ci_fixed, sipFinalState_ci_compounded]
  have hbc : 2 ≤ countB (T * 12 + 0) 1 (T * 12 + 0) :=
    countB_ge_two _ (by omega)
  have hb := one_add_mul_lt_pow_of_pos (s / 100) (by positivity) _ hbc
  rw [mul_comm ((countB (T * 12 + 0) 1 (T * 12 + 0) : ℕ) : ℚ) (s / 100)] at hb
  exact mul_lt_mul_of_pos_left hb hm

/-- C7 counterexample: at a tenure of exactly two years only one step-up
boundary occurs, and the compounded and fixed final contributions are
equal (both one step-up above the initial contribution) — not strictly
larger. -/
theorem compounded_beats_fixed_counterexample :
    ¬ ((sipFinalState 100 2 0 10 0 0 StepUpType.fixedStep).current_investment <
       (sipFinalState 100 2 0 10 0 0 StepUpType.compounded).current_investment) := by
  norm_num [sipFinalState, sipGo, sipMonth]

/-- Witness for the amended C7 at a concrete three-year run. -/
theorem compounded_beats_fixed_witness :
    (sipFinalState 100 3 0 10 0 0 StepUpType.fixedStep).current_investment <
      (sipFinalState 100 3 0 10 0 0 StepUpType.compounded).current_investment :=
  compounded_beats_fixed 100 10 0 0 3 (by norm_num) (by norm_num) (by norm_num)

end Sip

namespace Sip

/-- At a boundary month with the year counter still zero the contribution
is left unchanged. -/
theorem sipMonth_ci_boundary_young (mr s m0 : ℚ) (comp : Bool) (M month : ℕ)
    (st : SipState) (hb : month % 12 = 0 ∧ month < M)
    (hcy : ¬ 1 ≤ st.current_year) :
    (sipMonth mr s m0 comp M month st).current_investment =
      st.current_investment := by
  simp [sipMonth, hb, hcy]

/-- With zero step-up in compounded mode and nonnegative monthly rate, the
contribution stays constant and the corpus never decreases; after at least
one month it has grown by at least one contribution. -/
theorem sipGo_zero_stepup (mr m : ℚ) (M : ℕ) (hmr : 0 ≤ mr) (hm : 0 ≤ m) :
    ∀ (remaining month : ℕ) (st : SipState),
      st.current_investment = m → 0 ≤ st.corpus →
      (sipGo mr 0 m true M month remaining st).current_investment = m ∧
        0 ≤ (sipGo mr 0 m true M month remaining st).corpus ∧
        st.corpus ≤ (sipGo mr 0 m true M month remaining st).corpus ∧
        (1 ≤ remaining →
          st.corpus + m ≤ (sipGo mr 0 m true M month remaining st).corpus) := by
  intro remaining
  induction remaining with
  | zero =>
    intro month st hci hc
    exact ⟨hci, hc, le_refl _, fun h => absurd h (by omega)⟩
  | succ n ih =>
    intro month st hci hc
    rw [sipGo]
    have hci' : (sipMonth mr 0 m true M month st).current_investment = m := by
      by_cases hb : month % 12 = 0 ∧ month < M
      · by_cases hcy : 1 ≤ st.current_year
        · rw [sipMonth_ci_boundary_comp mr 0 m M month st hb hcy, hci]
          norm_num
        · rw [sipMonth_ci_boundary_young mr 0 m true M month st hb hcy, hci]
      · rw [sipMonth_ci_nonboundary mr 0 m true M month st hb, hci]
    have hcorp' : (sipMonth mr 0 m true M month st).corpus =
        (st.corpus + m) * (1 + mr) := by
      rw [sipMonth_corpus, hci]
    have hge : st.corpus + m ≤ (sipMonth mr 0 m true M month st).corpus := by
      rw [hcorp']
      nlinarith
    have h0 : 0 ≤ (sipMonth mr 0 m true M month st).corpus := by linarith
    obtain ⟨g1, g2, g3, g4⟩ := ih (month + 1) _ hci' h0
    exact ⟨g1, g2, by linarith, fun _ => by linarith⟩

/-- Simulating any nonnegative contribution over at least one year at a
nonnegative rate with no step-up and no lump sum yields at least one
monthly contribution. -/
theorem calculate_sip_final_ge (m : ℚ) (years : ℕ) (rate : ℚ)
    (hm : 0 ≤ m) (hrate : 0 ≤ rate) (hy : 1 ≤ years) :
    m ≤ (calculate_sip m years rate 0 0 0 StepUpType.compounded).final_amount := by
  have key : ∀ st : SipState, st.current_investment = m → 0 ≤ st.corpus →
      m ≤ (sipGo (rate / 100 / 12) 0 m true (years * 12 + 0) 1
        (years * 12 + 0) st).corpus := by
    intro st h1 h2
    have h4 := (sipGo_zero_stepup (rate / 100 / 12) m (years * 12 + 0)
      (by positivity) hm (years * 12 + 0) 1 st h1 h2).2.2.2 (by omega)
    linarith
  simp only [calculate_sip, sipFinalState]
  exact key _ rfl le_rfl

/-- Invariant of the bisection loop: whenever it returns a final state,
the recorded best result (if any) reached at least the target, and if no
result was recorded the upper bound is still the initial `target`. -/
theorem sipRequiredLoop_invariant (target : ℚ) (years : ℕ) (rate s lump : ℚ)
    (extra : ℕ) :
    ∀ (fuel : ℕ) (low high : ℚ) (result : Option SipResult)
      (lo hi : ℚ) (res : Option SipResult),
      (result = none → high = target) →
      (∀ c, result = some c → target ≤ c.final_amount) →
      sipRequiredLoop target years rate s lump extra fuel low high result =
        some (lo, hi, res) →
      (res = none → hi = target) ∧
        (∀ c, res = some c → target ≤ c.final_amount) := by
  intro fuel
  induction fuel with
  | zero =>
    intro low high result lo hi res h1 h2 heq
    rw [sipRequiredLoop] at heq
    by_cases hg : high - low > 1/100
    · rw [if_pos hg] at heq
      cases heq
    · rw [if_neg hg] at heq
      obtain ⟨rfl, rfl, rfl⟩ : low = lo ∧ high = hi ∧ result = res := by
        simpa using heq
      exact ⟨h1, h2⟩
  | succ n ih =>
    intro low high result lo hi res h1 h2 heq
    rw [sipRequiredLoop] at heq
    by_cases hg : high - low > 1/100
    · rw [if_pos hg] at heq
      dsimp only at heq
      by_cases hlt : (calculate_sip ((low + high) / 2) years rate s lump extra
          StepUpType.compounded).final_amount < target
      · rw [if_pos hlt] at heq
        exact ih _ _ _ _ _ _ h1 h2 heq
      · rw [if_neg hlt] at heq
        refine ih _ _ _ _ _ _ ?_ ?_ heq
        · intro hc
          exact absurd hc (by simp)
        · intro c hc
          obtain rfl : calculate_sip ((low + high) / 2) years rate s lump extra
              StepUpType.compounded = c := by simpa using hc
          exact le_of_not_lt hlt
    · rw [if_neg hg] at heq
      obtain ⟨rfl, rfl, rfl⟩ : low = lo ∧ high = hi ∧ result = res := by
        simpa using heq
      exact ⟨h1, h2⟩

/-- C5 amended: whenever the solver returns (the fuel sufficed for the
`while` loop to finish), the final amount of the returned result is at
least the target — the solver never undershoots, but it is not guaranteed
to land within the bisection tolerance of the target. -/
theorem required_final_at_least_target (target : ℚ) (years : ℕ) (rate : ℚ)
    (fuel : ℕ) (r : SipResult) (htp : 0 < target) (hy : 1 ≤ years)
    (hrate : 0 ≤ rate)
    (heq : calculate_sip_required target years rate 0 0 0 fuel = some r) :
    target ≤ r.final_amount := by
  rw [calculate_sip_required] at heq
  rcases hloop : sipRequiredLoop target years rate 0 0 0 fuel 0 target none with
    _ | ⟨lo, hi, res⟩
  · rw [hloop] at heq
    cases heq
  · rw [hloop] at heq
    have hr : res.getD (calculate_sip hi years rate 0 0 0
        StepUpType.compounded) = r := by simpa using heq
    obtain ⟨hnone, hsome⟩ := sipRequiredLoop_invariant target years rate 0 0 0
      fuel 0 target none lo hi res (fun _ => rfl)
      (fun c hc => Option.noConfusion hc) hloop
    cases res with
    | some c =>
      have hcr : c = r := by simpa using hr
      exact hcr ▸ hsome c rfl
    | none =>
      have hhi : hi = target := hnone rfl
      rw [← hr]
      simp only [Option.getD_none]
      rw [hhi]
      exact calculate_sip_final_ge target years rate (le_of_lt htp) hrate hy

end Sip

namespace Sip

/-- Witness for the amended C5 at a concrete input (target 0.005, one
year, zero rate, fuel 1). -/
theorem required_final_at_least_target_witness :
    (1 / 200 : ℚ) ≤
      ((calculate_sip_required (1/200) 1 0 0 0 0 1).getD default).final_amount := by
  refine required_final_at_least_target (1/200) 1 0 1 _ (by norm_num) (by norm_num)
    le_rfl ?_
  norm_num [calculate_sip_required, sipRequiredLoop, calculate_sip,
    sipFinalState, sipGo, sipMonth]

/-- C5 counterexample: at target 0.005 over one year at zero return the
solver terminates (with fuel 1, since the loop guard fails immediately)
and returns final amount 0.06 = 12 × 0.005, which is 0.055 away from the
target — far outside the 0.01 tolerance. -/
theorem required_within_tolerance_counterexample :
    (calculate_sip_required (1/200 : ℚ) 1 0 0 0 0 1).isSome = true ∧
      ¬ |((calculate_sip_required (1/200 : ℚ) 1 0 0 0 0 1).getD
            default).final_amount - 1/200| ≤ 1/100 := by
  have hval : ((calculate_sip_required (1/200 : ℚ) 1 0 0 0 0 1).getD
      default).final_amount = 3/50 := by
    norm_num [calculate_sip_required, sipRequiredLoop, calculate_sip,
      sipFinalState, sipGo, sipMonth]
  constructor
  · have h2 : calculate_sip_required (1/200 : ℚ) 1 0 0 0 0 1 =
        some ((calculate_sip_required (1/200 : ℚ) 1 0 0 0 0 1).getD default) := by
      norm_num [calculate_sip_required, sipRequiredLoop, calculate_sip,
        sipFinalState, sipGo, sipMonth]
    rw [h2]
    rfl
  · rw [hval, show (3/50 : ℚ) - 1/200 = 11/200 from by norm_num,
      abs_of_pos (by norm_num : (0:ℚ) < 11/200)]
    norm_num

/-- Each iteration of the bisection loop halves the search interval, so
fuel `n` suffices whenever the initial interval is at most `2 ^ n` times
the tolerance. -/
theorem sipRequiredLoop_halving (target : ℚ) (years : ℕ) (rate s lump : ℚ)
    (extra : ℕ) :
    ∀ (fuel : ℕ) (low high : ℚ) (result : Option SipResult),
      high - low ≤ 2 ^ fuel * (1 / 100) →
      (sipRequiredLoop target years rate s lump extra fuel low high
        result).isSome = true := by
  intro fuel
  induction fuel with
  | zero =>
    intro low high result h
    rw [pow_zero] at h
    rw [sipRequiredLoop, if_neg (by linarith)]
    rfl
  | succ n ih =>
    intro low high result h
    rw [sipRequiredLoop]
    by_cases hg : high - low > 1/100
    · rw [if_pos hg]
      dsimp only
      have hb : (high - low) / 2 ≤ 2 ^ n * (1 / 100) := by
        rw [pow_succ] at h
        linarith
      by_cases hlt : (calculate_sip ((low + high) / 2) years rate s lump extra
          StepUpType.compounded).final_amount < target
      · rw [if_pos hlt]
        exact ih _ _ _ (by linarith)
      · rw [if_neg hlt]
        exact ih _ _ _ (by linarith)
    · rw [if_neg hg]
      rfl

/-- C10: for every positive target (and any other parameters) the
bisection loop of `calculate_sip_required` reaches its exit condition
after finitely many iterations: some finite fuel makes the solver return
a result. -/
theorem bisection_terminates (target : ℚ) (years : ℕ) (rate s lump : ℚ)
    (extra : ℕ) (_htp : 0 < target) :
    ∃ fuel,
      (calculate_sip_required target years rate s lump extra fuel).isSome = true := by
  obtain ⟨n, hn⟩ := pow_unbounded_of_one_lt (100 * target) (by norm_num : (1:ℚ) < 2)
  refine ⟨n, ?_⟩
  have hterm := sipRequiredLoop_halving target years rate s lump extra n 0 target
    none (by linarith)
  rw [calculate_sip_required]
  rcases hloop : sipRequiredLoop target years rate s lump extra n 0 target none with
    _ | ⟨lo, hi, res⟩
  · rw [hloop] at hterm
    simp at hterm
  · rfl

/-- Witness for C10 at a concrete input. -/
theorem bisection_terminates_witness :
    ∃ fuel, (calculate_sip_required 1 1 0 0 0 0 fuel).isSome = true :=
  bisection_terminates 1 1 0 0 0 0 (by norm_num)

end Sip
